import Mathlib

/-!
Shallow embedding of the StarWarden synchronization engine
(`src/starwarden/linkwarden_api.py`, `src/starwarden/github_api.py`,
`src/starwarden/main.py`).

Python strings are modelled as `String` where only equality matters and as
`List Char` where character-level slicing matters (description truncation,
substring tests on exception messages).  Python `None` becomes `Option.none`,
the `LINK_EXISTS_GLOBALLY` sentinel, integer link ids and `None` returned by
`upload_link` become the three constructors of `UploadResult`.  HTTP traffic
is modelled by giving each function the sequence of responses the remote
service would produce.
-/

namespace Starwarden

/-! ### `linkwarden_api.upload_link` (lines 142-202)

The parsed JSON body of a response, restricted to the shapes `upload_link`
inspects: the `"response"` field is a string, an object (with optional
`"id"` and `"collectionId"` fields), or absent (`.get("response", {})`
then yields the empty dict). -/

inductive RespBody where
  | respStr (s : String)
  | respObj (id : Option Int) (collectionId : Option Int)
  | noResp
deriving DecidableEq, Repr

structure HttpResponse where
  status : Nat
  body : RespBody
deriving DecidableEq, Repr

/-- What `requests.post` produced: a response, or a raised
`RequestException` whose attached response (if any) has the given
status code. -/
inductive PostResult where
  | ok (resp : HttpResponse)
  | exn (status : Option Nat)
deriving DecidableEq, Repr

/-- Return value of `upload_link`: the `LINK_EXISTS_GLOBALLY` sentinel,
an integer link id, or Python `None`. -/
inductive UploadResult where
  | existsGlobally
  | id (n : Int)
  | none
deriving DecidableEq, Repr

/-- An exception that escapes `upload_link` uncaught.  The only such path is
the `created_link.get(...)` / `created_link["id"]` access when the
`"response"` field is a non-empty string containing `"id"`; it raises
`AttributeError`/`TypeError`, which the `except requests.RequestException`
clause does not catch. -/
inductive PyError where
  | attributeError
deriving DecidableEq, Repr

/-- `description = repo.description or ""` followed by
`if len(description) > 2048: description = f"{description[:2045]}..."`
(lines 143-145). -/
def truncated_description (repoDescription : Option (List Char)) : List Char :=
  let description := repoDescription.getD []
  if description.length > 2048 then description.take 2045 ++ ['.', '.', '.']
  else description

structure Repo where
  html_url : String
  full_name : String
  description : Option (List Char)
  language : Option String
deriving DecidableEq, Repr

structure Tag where
  name : String
deriving DecidableEq, Repr

/-- The creation payload `link_data` built by `upload_link` (lines 146-153). -/
structure LinkData where
  url : String
  title : String
  description : List Char
  collectionId : Int
  tags : List Tag
deriving DecidableEq, Repr

def link_data (collection_id : Int) (repo : Repo) (tags : List Tag) : LinkData :=
  { url := repo.html_url
    title := repo.full_name
    description := truncated_description repo.description
    collectionId := collection_id
    tags := tags }

/-- `response_json.get("response") == "Link already exists"` (line 172). -/
def respIsConflict : RespBody → Bool
  | .respStr s => s == "Link already exists"
  | _ => false

/-- Body of `upload_link` after the POST (lines 162-202), as a function of
the response the service produced.  `collection_id` only feeds a log line
comparing `created_link.get("collectionId")` to the requested collection,
so it does not influence the result.  A raised `RequestException` (from the
POST itself or from `raise_for_status` on a status >= 400) is caught and
turned into `None`. -/
def upload_link (collection_id : Int) (post : PostResult) :
    Except PyError UploadResult :=
  match post with
  | .exn _ => .ok UploadResult.none
  | .ok resp =>
    if resp.status == 409 && respIsConflict resp.body then
      .ok UploadResult.existsGlobally
    else if 400 ≤ resp.status then
      -- raise_for_status raises HTTPError, caught by except RequestException
      .ok UploadResult.none
    else
      match resp.body with
      | .respObj (some i) _ => .ok (UploadResult.id i)
      | .respObj Option.none _ => .ok UploadResult.none
      | .noResp => .ok UploadResult.none
      | .respStr s =>
        if s ≠ "" ∧ "id".data <:+: s.data then .error PyError.attributeError
        else .ok UploadResult.none

/-! ### `linkwarden_api.get_existing_links` (lines 13-90)

The generator is driven by the sequence of responses the `/api/v1/search`
endpoint returns: each fetch either succeeds with a list of links and an
optional `nextCursor`, or raises a `RequestException`. -/

structure LwLink where
  id : Int
  url : String
deriving DecidableEq, Repr

inductive FetchResult where
  | ok (links : List LwLink) (nextCursor : Option Int)
  | err
deriving DecidableEq, Repr

/-- The `for link in links` body (lines 45-56): duplicate bookkeeping, then
an unconditional `yield link_url`.  Returns (yielded urls, seen set,
duplicate ids), threading `seen_urls` and `duplicate_link_ids`. -/
def page_go : List LwLink → List String → List Int →
    List String × List String × List Int
  | [], seen, dups => ([], seen, dups)
  | l :: ls, seen, dups =>
    if l.url ∈ seen then
      let r := page_go ls seen (dups ++ [l.id])
      (l.url :: r.1, r.2.1, r.2.2)
    else
      let r := page_go ls (seen ++ [l.url]) dups
      (l.url :: r.1, r.2.1, r.2.2)

/-- The `while True` pagination loop: on a fetch error, `break` (no more
yields); on success, process the page, then stop when `nextCursor` is
absent, else continue with the remaining fetches.  Returns the yielded
urls and the collected `duplicate_link_ids`. -/
def links_go : List FetchResult → List String → List Int →
    List String × List Int
  | [], _, dups => ([], dups)
  | FetchResult.err :: _, _, dups => ([], dups)
  | FetchResult.ok links next :: rest, seen, dups =>
    let p := page_go links seen dups
    match next with
    | Option.none => (p.1, p.2.2)
    | some _ =>
      let r := links_go rest p.2.1 p.2.2
      (p.1 ++ r.1, r.2)

/-- `get_existing_links` with `delete_duplicate=False` (the only way
`run_update` calls it): the yielded url sequence and the duplicate ids. -/
def get_existing_links (fetches : List FetchResult) : List String × List Int :=
  links_go fetches [] []

/-- The urls carried by one successful fetch. -/
def page_urls : FetchResult → List String
  | .ok ls _ => ls.map LwLink.url
  | .err => []

/-! ### `github_api.get_starred_repos` / `handle_rate_limit` (lines 17-44)

`starred.get_page(page_num)` either returns the page's repositories or
raises.  A page is modelled as the failures its successive fetch attempts
raise before (if ever) succeeding, together with its repositories; the
generator's `while True` loop consumes them in order. -/

inductive GhFailure where
  /-- `RateLimitExceededException`, with the `Retry-After` header value. -/
  | rateLimitExceeded (retryAfter : Option Nat)
  /-- generic `GithubException` with its status, message (`str(e)`), and
      `Retry-After` header value. -/
  | githubException (status : Nat) (msg : List Char) (retryAfter : Option Nat)
deriving DecidableEq, Repr

def failure_headers : GhFailure → Option Nat
  | .rateLimitExceeded ra => ra
  | .githubException _ _ ra => ra

/-- `"rate limit" in str(e).lower()` (line 31). -/
def is_rate_limit_message (msg : List Char) : Prop :=
  "rate limit".data <:+: msg.map Char.toLower

instance (msg : List Char) : Decidable (is_rate_limit_message msg) :=
  List.decidableInfix _ _

/-- Which exceptions the loop absorbs with a backoff instead of re-raising:
the dedicated rate-limit exception, or a `GithubException` whose status is
403 and whose message mentions rate limiting (lines 28-32). -/
def retryable : GhFailure → Bool
  | .rateLimitExceeded _ => true
  | .githubException status msg _ =>
    status == 403 && decide (is_rate_limit_message msg)

/-- `handle_rate_limit(e, retry_after)` (lines 38-44): the number of
seconds it sleeps — the explicit `retry_after` argument when not `None`,
else the exception's `Retry-After` header, else 60. -/
def handle_rate_limit (headers_retry_after : Option Nat)
    (retry_after : Option Nat) : Nat :=
  retry_after.getD (headers_retry_after.getD 60)

/-- A starred-repository page: the failures raised by successive
`get_page` attempts before the attempt that returns `items`. -/
structure GhPage where
  failures : List GhFailure
  items : List String
deriving DecidableEq, Repr

/-- The inner `while True` retry loop for one page (lines 24-35).  Result:
(sleep durations performed, repositories yielded, exception re-raised).
A retryable failure sleeps `handle_rate_limit` seconds and retries the
same page; any other failure re-raises at once (no sleep, nothing
yielded). -/
def fetch_page (items : List String) :
    List GhFailure → List Nat × List String × Option GhFailure
  | [] => ([], items, Option.none)
  | f :: fs =>
    if retryable f then
      let r := fetch_page items fs
      (handle_rate_limit (failure_headers f) Option.none :: r.1, r.2.1, r.2.2)
    else ([], [], some f)

/-- `get_starred_repos` over its pages in order: concatenates each page's
sleeps and yields, stopping (and recording the exception) as soon as a
page re-raises. -/
def get_starred_repos : List GhPage → List Nat × List String × Option GhFailure
  | [] => ([], [], Option.none)
  | p :: ps =>
    let r := fetch_page p.items p.failures
    match r.2.2 with
    | some e => (r.1, r.2.1, some e)
    | Option.none =>
      let rest := get_starred_repos ps
      (r.1 ++ rest.1, r.2.1 ++ rest.2.1, rest.2.2)

/-! ### `main.build_tags` (lines 15-34) -/

structure ConfigData where
  opt_tag : Bool
  opt_tag_github : Bool
  opt_tag_githubStars : Bool
  opt_tag_language : Bool
  opt_tag_username : Bool
  opt_tag_custom : String
  github_username : String
deriving DecidableEq, Repr

def build_tags (config_data : ConfigData) (repo : Repo) : List Tag :=
  if !config_data.opt_tag then []
  else
    (if config_data.opt_tag_github then [Tag.mk "GitHub"] else []) ++
    (if config_data.opt_tag_githubStars then [Tag.mk "GitHub Stars"] else []) ++
    (if config_data.opt_tag_language && repo.language.getD "" != "" then
      [Tag.mk (repo.language.getD "")] else []) ++
    (if config_data.opt_tag_username then [Tag.mk config_data.github_username]
     else []) ++
    (if config_data.opt_tag_custom != "" then
      ((config_data.opt_tag_custom.splitOn ",").filter
        (fun t => t.length > 0)).map (fun t => Tag.mk t.trim)
     else [])

/-! ### `main.run_update` (lines 37-120)

The upload loop is driven by what each successive `upload_link` call does
for a given repository: return a value, raise a `RequestException` (whose
attached response, if any, has the given status), or raise some other
exception.  The oracle `attempts : Nat → AttemptResult` gives the result
of the call made when `retry_count = k`. -/

inductive AttemptResult where
  | ret (r : UploadResult)
  | reqExn (status : Option Nat)
  | otherExn
deriving Repr

/-- How the `while retry_count < max_retries` loop for one repository
ended. -/
inductive ItemOutcome where
  /-- `upload_link` returned `r`; the `if/elif/else` counted it and broke. -/
  | counted (r : UploadResult)
  /-- a non-429 `RequestException` or an unexpected exception: counted
      failed, broke. -/
  | failedExn
  /-- the `while`'s `else` clause: retries exhausted, counted failed. -/
  | exhausted
deriving DecidableEq, Repr

/-- Trace of one repository's upload loop: its outcome, how many
`upload_link` calls it made, and how many rate-limit sleeps it performed. -/
structure ItemTrace where
  outcome : ItemOutcome
  calls : Nat
  sleeps : Nat
deriving DecidableEq, Repr

def max_retries : Nat := 3

/-- The retry loop (lines 71-103) with `retry_count = k` and
`fuel = max_retries - k` iterations remaining.  Only a `RequestException`
whose response carries status 429 sleeps (`handle_rate_limit`) and
consumes a retry; every other exception counts the item failed and breaks. -/
def retry_loop (attempts : Nat → AttemptResult) : Nat → Nat → ItemTrace
  | _, 0 => ⟨ItemOutcome.exhausted, 0, 0⟩
  | k, fuel + 1 =>
    match attempts k with
    | .ret r => ⟨ItemOutcome.counted r, 1, 0⟩
    | .reqExn s =>
      if s = some 429 then
        let t := retry_loop attempts (k + 1) fuel
        ⟨t.outcome, t.calls + 1, t.sleeps + 1⟩
      else ⟨ItemOutcome.failedExn, 1, 0⟩
    | .otherExn => ⟨ItemOutcome.failedExn, 1, 0⟩

def process_item (attempts : Nat → AttemptResult) : ItemTrace :=
  retry_loop attempts 0 max_retries

/-- `elif link_id:` — Python truthiness of the returned value: an integer
id is truthy iff non-zero; `None` is falsy (the sentinel is tested first
with `is`). -/
def truthy : UploadResult → Bool
  | .id n => n != 0
  | _ => false

/-- The run counters, plus instrumentation counting how often the loop
called `upload_link` and how often it slept in `handle_rate_limit`. -/
structure RunCounts where
  successful_uploads : Nat
  failed_uploads : Nat
  skipped_uploads : Nat
  upload_calls : Nat
  sleeps : Nat
deriving DecidableEq, Repr

/-- The `if link_id is LINK_EXISTS_GLOBALLY / elif link_id / else`
counting (lines 78-86) together with the failure paths (lines 88-103). -/
def count_item (c : RunCounts) (t : ItemTrace) : RunCounts :=
  let c := { c with upload_calls := c.upload_calls + t.calls,
                    sleeps := c.sleeps + t.sleeps }
  match t.outcome with
  | .counted r =>
    if r = UploadResult.existsGlobally then
      { c with skipped_uploads := c.skipped_uploads + 1 }
    else if truthy r then
      { c with successful_uploads := c.successful_uploads + 1 }
    else { c with failed_uploads := c.failed_uploads + 1 }
  | .failedExn => { c with failed_uploads := c.failed_uploads + 1 }
  | .exhausted => { c with failed_uploads := c.failed_uploads + 1 }

/-- One repository from `get_starred_repos`, bundled with the behaviour of
the `upload_link` calls the loop would make for it. -/
structure SourceItem where
  html_url : String
  attempts : Nat → AttemptResult

/-- The body of the `for repo in ...` loop (lines 60-105): a repository
whose `html_url` is already in `existing_links` is counted skipped without
any upload call; otherwise the retry loop runs and its outcome is
counted. -/
def run_update_step (existing_links : List String) (c : RunCounts)
    (item : SourceItem) : RunCounts :=
  if item.html_url ∈ existing_links then
    { c with skipped_uploads := c.skipped_uploads + 1 }
  else count_item c (process_item item.attempts)

/-- `run_update`'s counter loop (lines 54-105): counters start at zero and
each starred repository is processed in order. -/
def run_update (existing_links : List String) (repos : List SourceItem) :
    RunCounts :=
  repos.foldl (run_update_step existing_links) ⟨0, 0, 0, 0, 0⟩

/-- `created + failed + skipped` of a counter state. -/
def counter_total (c : RunCounts) : Nat :=
  c.successful_uploads + c.failed_uploads + c.skipped_uploads

/-- Componentwise sum of counter states, used to express that the loop body
only ever adds to the counters. -/
def add_counts (a b : RunCounts) : RunCounts :=
  ⟨a.successful_uploads + b.successful_uploads,
   a.failed_uploads + b.failed_uploads,
   a.skipped_uploads + b.skipped_uploads,
   a.upload_calls + b.upload_calls,
   a.sleeps + b.sleeps⟩

/-! ## Helper lemmas -/

theorem count_item_total (c : RunCounts) (t : ItemTrace) :
    counter_total (count_item c t) = counter_total c + 1 := by
  unfold count_item counter_total
  cases t.outcome <;> dsimp only <;> try omega
  split
  · dsimp only; omega
  · split <;> dsimp only <;> omega

theorem run_update_step_total (e : List String) (c : RunCounts)
    (item : SourceItem) :
    counter_total (run_update_step e c item) = counter_total c + 1 := by
  unfold run_update_step
  split
  · simp only [counter_total]; omega
  · exact count_item_total c (process_item item.attempts)

theorem run_update_foldl_total (e : List String) (repos : List SourceItem) :
    ∀ c : RunCounts,
      counter_total (repos.foldl (run_update_step e) c) =
        counter_total c + repos.length := by
  induction repos with
  | nil => intro c; simp
  | cons i is ih =>
    intro c
    simp only [List.foldl_cons, List.length_cons, ih, run_update_step_total]
    omega

end Starwarden

/-- Claim C1: in `run_update`, each source item increments exactly one of the
three counters (each loop iteration adds exactly one to
`successful_uploads + failed_uploads + skipped_uploads`), so after a run over
any list of N source items the counters satisfy
`created + failed + skipped = N`. -/
theorem Starwarden.counter_conservation :
    (∀ e c item, Starwarden.counter_total (Starwarden.run_update_step e c item) =
      Starwarden.counter_total c + 1) ∧
    ∀ e repos, Starwarden.counter_total (Starwarden.run_update e repos) =
      repos.length := by
  refine ⟨Starwarden.run_update_step_total, fun e repos => ?_⟩
  unfold Starwarden.run_update
  rw [Starwarden.run_update_foldl_total]
  simp only [Starwarden.counter_total]
  omega

/-- Claim C10: when the master toggle `opt_tag` is false, `build_tags`
returns the empty list whatever the other tag options are. -/
theorem Starwarden.build_tags_gated :
    ∀ config_data repo, config_data.opt_tag = false →
      Starwarden.build_tags config_data repo = [] := by
  intro config_data repo h
  simp [Starwarden.build_tags, h]

/-- Witness for C10 at a configuration with every other option switched on. -/
theorem Starwarden.build_tags_gated_witness :
    Starwarden.build_tags ⟨false, true, true, true, true, "x, y", "user"⟩
      ⟨"https://github.com/u/r", "u/r", Option.none, some "Python"⟩ = [] :=
  Starwarden.build_tags_gated _ _ rfl

/-- Claim C6: a description of at most 2048 characters enters the payload
unchanged; a longer one is replaced by a string of length exactly 2048 whose
last three characters are the ellipsis marker `...` and whose first 2045
characters are the original's first 2045; in particular a 3000-character
description truncates to exactly 2048 characters. -/
theorem Starwarden.truncation_exact :
    (∀ d : List Char, d.length ≤ 2048 →
      Starwarden.truncated_description (some d) = d) ∧
    (∀ d : List Char, 2048 < d.length →
      (Starwarden.truncated_description (some d)).length = 2048 ∧
      (Starwarden.truncated_description (some d)).take 2045 = d.take 2045 ∧
      (Starwarden.truncated_description (some d)).drop 2045 = ['.', '.', '.']) ∧
    ∀ d : List Char, d.length = 3000 →
      (Starwarden.truncated_description (some d)).length = 2048 := by
  refine ⟨fun d h => ?_, fun d h => ?_, fun d h => ?_⟩
  · simp only [Starwarden.truncated_description, Option.getD_some]
    rw [if_neg (by omega)]
  · have ht : (d.take 2045).length = 2045 := by
      rw [List.length_take]; omega
    simp only [Starwarden.truncated_description, Option.getD_some]
    rw [if_pos (by omega)]
    refine ⟨?_, ?_, ?_⟩
    · simp [List.length_append, ht]
    · rw [List.take_append_eq_append_take, ht]
      simp [List.take_take]
    · rw [List.drop_append_eq_append_drop, ht]
      simp [List.drop_eq_nil_of_le (le_of_eq ht)]
  · have ht : (d.take 2045).length = 2045 := by
      rw [List.length_take]; omega
    simp only [Starwarden.truncated_description, Option.getD_some]
    rw [if_pos (by omega)]
    simp [List.length_append, ht]

/-- Witness for C6: a 3000-character description truncates to length 2048. -/
theorem Starwarden.truncation_exact_witness :
    (Starwarden.truncated_description (some (List.replicate 3000 'a'))).length =
      2048 :=
  Starwarden.truncation_exact.2.2 (List.replicate 3000 'a')
    (List.length_replicate 3000 'a')

namespace Starwarden

theorem run_update_foldl_skip (e : List String) :
    ∀ (repos : List SourceItem) (c : RunCounts),
      (∀ item ∈ repos, item.html_url ∈ e) →
      repos.foldl (run_update_step e) c =
        { c with skipped_uploads := c.skipped_uploads + repos.length } := by
  intro repos
  induction repos with
  | nil => intro c _; simp
  | cons i is ih =>
    intro c h
    have hi : i.html_url ∈ e := h i (List.mem_cons_self i is)
    have hs : ∀ item ∈ is, item.html_url ∈ e :=
      fun x hx => h x (List.mem_cons_of_mem i hx)
    simp only [List.foldl_cons, run_update_step, if_pos hi]
    rw [ih _ hs]
    simp only [List.length_cons, RunCounts.mk.injEq, true_and, and_true]
    omega

end Starwarden

/-- Claim C2: a source item whose `html_url` is in the destination snapshot
is counted skipped without any `upload_link` call; when the snapshot contains
every item's url (an unchanged second run), the run ends with
`successful_uploads = 0`, `failed_uploads = 0`, `skipped_uploads = N` and
zero uploader invocations. -/
theorem Starwarden.idempotent_second_run :
    (∀ e c item, item.html_url ∈ e →
      Starwarden.run_update_step e c item =
        { c with skipped_uploads := c.skipped_uploads + 1 }) ∧
    ∀ e repos, (∀ item ∈ repos, item.html_url ∈ e) →
      Starwarden.run_update e repos =
        { successful_uploads := 0, failed_uploads := 0,
          skipped_uploads := repos.length, upload_calls := 0, sleeps := 0 } := by
  constructor
  · intro e c item h
    simp only [Starwarden.run_update_step, if_pos h]
  · intro e repos h
    unfold Starwarden.run_update
    rw [Starwarden.run_update_foldl_skip e repos _ h]
    simp

/-- Witness for C2 at a one-item run whose url is already present. -/
theorem Starwarden.idempotent_second_run_witness :
    Starwarden.run_update ["https://github.com/u/r"]
      [⟨"https://github.com/u/r", fun _ => Starwarden.AttemptResult.otherExn⟩] =
      { successful_uploads := 0, failed_uploads := 0, skipped_uploads := 1,
        upload_calls := 0, sleeps := 0 } :=
  Starwarden.idempotent_second_run.2 _ _ (by
    intro item hi
    rw [List.mem_singleton] at hi
    subst hi
    exact List.mem_singleton.mpr rfl)

namespace Starwarden

theorem add_counts_zero (c : RunCounts) : add_counts c ⟨0, 0, 0, 0, 0⟩ = c := by
  cases c
  simp [add_counts]

theorem add_counts_assoc (a b c : RunCounts) :
    add_counts (add_counts a b) c = add_counts a (add_counts b c) := by
  simp only [add_counts, RunCounts.mk.injEq]
  omega

theorem count_item_add (a c : RunCounts) (t : ItemTrace) :
    count_item (add_counts a c) t = add_counts a (count_item c t) := by
  cases a; cases c
  obtain ⟨o, tcalls, tsleeps⟩ := t
  cases o with
  | counted r =>
    by_cases h1 : r = UploadResult.existsGlobally
    · (simp [count_item, add_counts, h1]) <;> omega
    · by_cases h2 : truthy r
      · (simp [count_item, add_counts, h1, h2]) <;> omega
      · (simp [count_item, add_counts, h1, h2]) <;> omega
  | failedExn => (simp [count_item, add_counts]) <;> omega
  | exhausted => (simp [count_item, add_counts]) <;> omega

theorem run_update_step_add (e : List String) (a c : RunCounts)
    (item : SourceItem) :
    run_update_step e (add_counts a c) item =
      add_counts a (run_update_step e c item) := by
  unfold run_update_step
  by_cases h : item.html_url ∈ e
  · simp only [if_pos h, add_counts, RunCounts.mk.injEq, true_and, and_true]
    omega
  · simp only [if_neg h]
    exact count_item_add a c (process_item item.attempts)

theorem run_update_foldl_add (e : List String) :
    ∀ (repos : List SourceItem) (c : RunCounts),
      repos.foldl (run_update_step e) c = add_counts c (run_update e repos) := by
  intro repos
  induction repos with
  | nil => intro c; simp [run_update, add_counts_zero]
  | cons i is ih =>
    intro c
    have hstep : run_update_step e c i =
        add_counts c (run_update_step e ⟨0, 0, 0, 0, 0⟩ i) := by
      conv_lhs => rw [← add_counts_zero c]
      exact run_update_step_add e c ⟨0, 0, 0, 0, 0⟩ i
    simp only [run_update, List.foldl_cons]
    rw [ih, hstep, ih, add_counts_assoc]

theorem run_update_cons (e : List String) (item : SourceItem)
    (repos : List SourceItem) :
    run_update e (item :: repos) =
      add_counts (run_update_step e ⟨0, 0, 0, 0, 0⟩ item)
        (run_update e repos) := by
  simp only [run_update, List.foldl_cons]
  exact run_update_foldl_add e repos _

end Starwarden

/-- Claim C3: a 409 response whose body is `{"response": "Link already
exists"}` makes `upload_link` return the `LINK_EXISTS_GLOBALLY` sentinel —
a value distinct from every integer link id and from `None` — and a
reconciler item whose upload returns that sentinel is counted skipped,
never created or failed. -/
theorem Starwarden.conflict_yields_already_exists :
    (∀ cid : Int, Starwarden.upload_link cid
        (Starwarden.PostResult.ok ⟨409,
          Starwarden.RespBody.respStr "Link already exists"⟩) =
      Except.ok Starwarden.UploadResult.existsGlobally) ∧
    (∀ n : Int, Starwarden.UploadResult.existsGlobally ≠
      Starwarden.UploadResult.id n) ∧
    Starwarden.UploadResult.existsGlobally ≠ Starwarden.UploadResult.none ∧
    ∀ e item, item.html_url ∉ e →
      item.attempts 0 =
        Starwarden.AttemptResult.ret Starwarden.UploadResult.existsGlobally →
      Starwarden.run_update e [item] =
        { successful_uploads := 0, failed_uploads := 0, skipped_uploads := 1,
          upload_calls := 1, sleeps := 0 } := by
  refine ⟨fun cid => rfl,
    fun n h => Starwarden.UploadResult.noConfusion h,
    fun h => Starwarden.UploadResult.noConfusion h, ?_⟩
  intro e item hmem hatt
  simp [Starwarden.run_update, Starwarden.run_update_step, hmem,
    Starwarden.process_item, Starwarden.max_retries, Starwarden.retry_loop,
    hatt, Starwarden.count_item]

/-- Witness for C3 at a one-item run whose upload reports the conflict. -/
theorem Starwarden.conflict_yields_already_exists_witness :
    Starwarden.run_update []
      [⟨"https://github.com/u/r",
        fun _ => Starwarden.AttemptResult.ret
          Starwarden.UploadResult.existsGlobally⟩] =
      { successful_uploads := 0, failed_uploads := 0, skipped_uploads := 1,
        upload_calls := 1, sleeps := 0 } :=
  Starwarden.conflict_yields_already_exists.2.2.2 [] _ (by simp) rfl

/-- Claim C4: for a non-skipped item the upload runs under a budget of
`max_retries = 3` attempts; only a `RequestException` carrying status 429
sleeps and consumes a retry; a non-429 request exception or an unexpected
exception counts the item failed at once with no further attempts or
sleeps; and a budget exhausted purely by 429s counts the item failed after
3 calls and 3 sleeps, the run proceeding to the remaining items. -/
theorem Starwarden.retry_budget :
    (∀ attempts, (∀ k, attempts k =
        Starwarden.AttemptResult.reqExn (some 429)) →
      Starwarden.process_item attempts =
        ⟨Starwarden.ItemOutcome.exhausted, 3, 3⟩) ∧
    (∀ attempts r, attempts 0 = Starwarden.AttemptResult.reqExn (some 429) →
      attempts 1 = Starwarden.AttemptResult.ret r →
      Starwarden.process_item attempts =
        ⟨Starwarden.ItemOutcome.counted r, 2, 1⟩) ∧
    (∀ attempts s, attempts 0 = Starwarden.AttemptResult.reqExn s →
      s ≠ some 429 →
      Starwarden.process_item attempts =
        ⟨Starwarden.ItemOutcome.failedExn, 1, 0⟩) ∧
    (∀ attempts, attempts 0 = Starwarden.AttemptResult.otherExn →
      Starwarden.process_item attempts =
        ⟨Starwarden.ItemOutcome.failedExn, 1, 0⟩) ∧
    (∀ c, Starwarden.count_item c ⟨Starwarden.ItemOutcome.failedExn, 1, 0⟩ =
      { c with failed_uploads := c.failed_uploads + 1,
               upload_calls := c.upload_calls + 1 }) ∧
    ∀ e item repos, item.html_url ∉ e →
      (∀ k, item.attempts k = Starwarden.AttemptResult.reqExn (some 429)) →
      Starwarden.run_update e (item :: repos) =
        Starwarden.add_counts ⟨0, 1, 0, 3, 3⟩ (Starwarden.run_update e repos) := by
  have exhaust : ∀ attempts, (∀ k, attempts k =
      Starwarden.AttemptResult.reqExn (some 429)) →
      Starwarden.process_item attempts =
        ⟨Starwarden.ItemOutcome.exhausted, 3, 3⟩ := by
    intro attempts h
    simp [Starwarden.process_item, Starwarden.max_retries,
      Starwarden.retry_loop, h]
  refine ⟨exhaust, ?_, ?_, ?_, ?_, ?_⟩
  · intro attempts r h0 h1
    simp [Starwarden.process_item, Starwarden.max_retries,
      Starwarden.retry_loop, h0, h1]
  · intro attempts s h0 hs
    simp [Starwarden.process_item, Starwarden.max_retries,
      Starwarden.retry_loop, h0, hs]
  · intro attempts h0
    simp [Starwarden.process_item, Starwarden.max_retries,
      Starwarden.retry_loop, h0]
  · intro c
    cases c
    simp [Starwarden.count_item]
  · intro e item repos hmem h
    rw [Starwarden.run_update_cons]
    congr 1
    simp only [Starwarden.run_update_step, if_neg hmem, exhaust item.attempts h,
      Starwarden.count_item]

/-- Witness for C4: three straight 429s exhaust the budget — the item makes
3 calls, sleeps 3 times and is marked exhausted (counted failed). -/
theorem Starwarden.retry_budget_witness :
    Starwarden.process_item
      (fun _ => Starwarden.AttemptResult.reqExn (some 429)) =
      ⟨Starwarden.ItemOutcome.exhausted, 3, 3⟩ :=
  Starwarden.retry_budget.1 _ (fun _ => rfl)

/-- Counterexample for C9: a 409 conflict response is an HTTP error
response, yet `upload_link` returns the `LINK_EXISTS_GLOBALLY` sentinel for
it — not the `Failed` outcome (`None`) the claim asserts for every HTTP
error response. -/
theorem Starwarden.conflict_response_not_none :
    Starwarden.upload_link 1 (Starwarden.PostResult.ok ⟨409,
      Starwarden.RespBody.respStr "Link already exists"⟩) =
      Except.ok Starwarden.UploadResult.existsGlobally ∧
    (Except.ok Starwarden.UploadResult.existsGlobally :
      Except Starwarden.PyError Starwarden.UploadResult) ≠
      Except.ok Starwarden.UploadResult.none := by
  refine ⟨rfl, ?_⟩
  intro h
  simp only [Except.ok.injEq] at h
  exact Starwarden.UploadResult.noConfusion h

/-- Claim C9 (amended): every request exception raised while posting, and
every HTTP error response other than a 409 conflict whose body indicates
the link already exists, is absorbed by `upload_link`, which returns `None`
instead of propagating the exception. -/
theorem Starwarden.upload_errors_swallowed :
    (∀ (cid : Int) (s : Option Nat),
      Starwarden.upload_link cid (Starwarden.PostResult.exn s) =
        Except.ok Starwarden.UploadResult.none) ∧
    ∀ (cid : Int) (st : Nat) (body : Starwarden.RespBody), 400 ≤ st →
      (st = 409 → Starwarden.respIsConflict body = false) →
      Starwarden.upload_link cid (Starwarden.PostResult.ok ⟨st, body⟩) =
        Except.ok Starwarden.UploadResult.none := by
  refine ⟨fun cid s => rfl, fun cid st body h1 h2 => ?_⟩
  have hc : (st == 409 && Starwarden.respIsConflict body) = false := by
    by_cases h : st = 409
    · simp [h2 h]
    · simp [h]
  simp [Starwarden.upload_link, hc, h1]

/-- Witness for C9's amended theorem at a 429 response. -/
theorem Starwarden.upload_errors_swallowed_witness :
    Starwarden.upload_link 1 (Starwarden.PostResult.ok
      ⟨429, Starwarden.RespBody.noResp⟩) =
      Except.ok Starwarden.UploadResult.none :=
  Starwarden.upload_errors_swallowed.2 1 429 Starwarden.RespBody.noResp
    (by decide) (fun h => absurd h (by decide))

namespace Starwarden

theorem page_go_fst :
    ∀ (ls : List LwLink) (seen : List String) (dups : List Int),
      (page_go ls seen dups).1 = ls.map LwLink.url := by
  intro ls
  induction ls with
  | nil => intro seen dups; rfl
  | cons l ls ih =>
    intro seen dups
    by_cases h : l.url ∈ seen <;> simp [page_go, h, ih]

theorem links_go_stops_at_err :
    ∀ (pre rest : List FetchResult) (seen : List String) (dups : List Int),
      (∀ f ∈ pre, ∃ ls c, f = FetchResult.ok ls (some c)) →
      (links_go (pre ++ FetchResult.err :: rest) seen dups).1 =
        (pre.map page_urls).flatten := by
  intro pre
  induction pre with
  | nil => intro rest seen dups _; rfl
  | cons f fs ih =>
    intro rest seen dups h
    obtain ⟨ls, c, rfl⟩ := h f (List.mem_cons_self f fs)
    simp [links_go, page_go_fst, page_urls,
      ih rest _ _ (fun x hx => h x (List.mem_cons_of_mem _ hx))]

end Starwarden

/-- Claim C5 asserts the enumeration never re-yields an already-yielded
URL.  The code yields unconditionally: at an enumeration where
`https://a.com` appears on two pages, `get_existing_links` yields it twice
(URL count 2), while its second observation is consumed for duplicate-id
collection (`[3]`). -/
theorem Starwarden.duplicate_url_yielded_twice :
    Starwarden.get_existing_links
      [Starwarden.FetchResult.ok
        [⟨1, "https://a.com"⟩, ⟨2, "https://b.com"⟩] (some 2),
       Starwarden.FetchResult.ok [⟨3, "https://a.com"⟩] Option.none] =
      (["https://a.com", "https://b.com", "https://a.com"], [3]) ∧
    (Starwarden.get_existing_links
      [Starwarden.FetchResult.ok
        [⟨1, "https://a.com"⟩, ⟨2, "https://b.com"⟩] (some 2),
       Starwarden.FetchResult.ok [⟨3, "https://a.com"⟩]
         Option.none]).1.count "https://a.com" = 2 := by
  refine ⟨rfl, ?_⟩
  rfl

/-- Claim C7: a request error during destination-key enumeration ends the
enumeration without raising; the caller receives exactly the keys yielded
by the error-free pages fetched before the error, whatever responses would
have followed. -/
theorem Starwarden.enumeration_stops_on_error :
    ∀ pre rest,
      (∀ f ∈ pre, ∃ ls c, f = Starwarden.FetchResult.ok ls (some c)) →
      (Starwarden.get_existing_links
        (pre ++ Starwarden.FetchResult.err :: rest)).1 =
        (pre.map Starwarden.page_urls).flatten :=
  fun pre rest h => Starwarden.links_go_stops_at_err pre rest [] [] h

/-- Witness for C7: one successful page, then an error, then a page that is
never fetched — only the first page's key is yielded. -/
theorem Starwarden.enumeration_stops_on_error_witness :
    (Starwarden.get_existing_links
      [Starwarden.FetchResult.ok [⟨1, "https://a.com"⟩] (some 1),
       Starwarden.FetchResult.err,
       Starwarden.FetchResult.ok [⟨2, "https://b.com"⟩] Option.none]).1 =
      ["https://a.com"] := by
  have h := Starwarden.enumeration_stops_on_error
    [Starwarden.FetchResult.ok [⟨1, "https://a.com"⟩] (some 1)]
    [Starwarden.FetchResult.ok [⟨2, "https://b.com"⟩] Option.none]
    (by intro f hf; rw [List.mem_singleton] at hf; exact ⟨_, _, hf⟩)
  simpa using h

namespace Starwarden

theorem fetch_page_all_retryable (items : List String) :
    ∀ fs : List GhFailure, (∀ f ∈ fs, retryable f = true) →
      fetch_page items fs =
        (fs.map (fun f => handle_rate_limit (failure_headers f) Option.none),
         items, Option.none) := by
  intro fs
  induction fs with
  | nil => intro _; rfl
  | cons f fs ih =>
    intro h
    have hf := h f (List.mem_cons_self f fs)
    simp [fetch_page, hf, ih (fun x hx => h x (List.mem_cons_of_mem _ hx))]

theorem get_starred_repos_all_retryable :
    ∀ pages : List GhPage,
      (∀ p ∈ pages, ∀ f ∈ p.failures, retryable f = true) →
      get_starred_repos pages =
        ((pages.map (fun p => p.failures.map
            (fun f => handle_rate_limit (failure_headers f) Option.none))).flatten,
         (pages.map GhPage.items).flatten, Option.none) := by
  intro pages
  induction pages with
  | nil => intro _; rfl
  | cons p ps ih =>
    intro h
    have hp := h p (List.mem_cons_self p ps)
    have hr := fetch_page_all_retryable p.items p.failures hp
    simp [get_starred_repos, hr,
      ih (fun q hq => h q (List.mem_cons_of_mem _ hq))]

end Starwarden

/-- Counterexample for C8: a generic `GithubException` carrying status 429
with a rate-limiting message is, per the claim, a rate-limit signal that
should back off and re-attempt the page; the code only treats status 403
this way, so the exception propagates: no sleep, no items, enumeration
aborted — not the `([60], ["r1"], none)` the claim predicts. -/
theorem Starwarden.generic_429_propagates :
    Starwarden.get_starred_repos
      [⟨[Starwarden.GhFailure.githubException 429
          ("API rate limit exceeded".data) Option.none], ["r1"]⟩] =
      ([], [],
       some (Starwarden.GhFailure.githubException 429
         ("API rate limit exceeded".data) Option.none)) ∧
    (([], [],
       some (Starwarden.GhFailure.githubException 429
         ("API rate limit exceeded".data) Option.none)) :
      List Nat × List String × Option Starwarden.GhFailure) ≠
      ([60], ["r1"], Option.none) := by
  exact ⟨rfl, by decide⟩

/-- Claim C8 (amended): the lister backs off and re-attempts the same page
for the dedicated rate-limit exception and for generic API errors with
status 403 and a rate-limiting message; the sleep lasts `Retry-After`
seconds when the header is present and 60 seconds otherwise; a sequence of
pages whose failures are all such signals yields every page's items exactly
once with one sleep per failure; any other error (including a generic 429)
propagates immediately, with no sleep and nothing yielded from that page. -/
theorem Starwarden.source_rate_limit_retry :
    (∀ pages : List Starwarden.GhPage,
      (∀ p ∈ pages, ∀ f ∈ p.failures, Starwarden.retryable f = true) →
      Starwarden.get_starred_repos pages =
        ((pages.map (fun p => p.failures.map
            (fun f => Starwarden.handle_rate_limit
              (Starwarden.failure_headers f) Option.none))).flatten,
         (pages.map Starwarden.GhPage.items).flatten, Option.none)) ∧
    (∀ n : Nat,
      Starwarden.handle_rate_limit (some n) Option.none = n) ∧
    Starwarden.handle_rate_limit Option.none Option.none = 60 ∧
    (∀ msg ra, Starwarden.retryable
        (Starwarden.GhFailure.githubException 403 msg ra) =
      decide (Starwarden.is_rate_limit_message msg)) ∧
    ∀ (p : Starwarden.GhPage) ps f fs, p.failures = f :: fs →
      Starwarden.retryable f = false →
      Starwarden.get_starred_repos (p :: ps) = ([], [], some f) := by
  refine ⟨Starwarden.get_starred_repos_all_retryable,
    fun n => rfl, rfl, fun msg ra => by simp [Starwarden.retryable], ?_⟩
  intro p ps f fs hp hf
  simp [Starwarden.get_starred_repos, hp, Starwarden.fetch_page, hf]

/-- Witness for C8's amended theorem: a page that hits the rate limit once
(`Retry-After: 5`) and then succeeds, followed by a clean page — one sleep
of 5 seconds, every item yielded exactly once. -/
theorem Starwarden.source_rate_limit_retry_witness :
    Starwarden.get_starred_repos
      [⟨[Starwarden.GhFailure.rateLimitExceeded (some 5)], ["r1"]⟩,
       ⟨[], ["r2"]⟩] = ([5], ["r1", "r2"], Option.none) := by
  have h := Starwarden.source_rate_limit_retry.1
    [⟨[Starwarden.GhFailure.rateLimitExceeded (some 5)], ["r1"]⟩,
     ⟨[], ["r2"]⟩]
    (by decide)
  simpa using h
